import Mathlib

/-!
Verification of the entity-fusion and masking core of the
comprehensive GDPR anonymizer (`comprehensive_gdpr_anonymizer.py`).

The span producers (CLASSLA NER, Presidio regexes, regional regexes,
phone-number matching) are external collaborators: `anonymize_text`
below receives the already-combined entity list that in the source is
built as `ner_entities + presidio_entities + regional_entities`
(line 515).  Text is modelled as `List Char` with the half-open
`[start, end)` character offsets of the source; Python string slicing
`text[:start]` / `text[end:]` with non-negative clamped indices is
`List.take` / `List.drop`, and Python string repetition `s * n`
(empty for `n <= 0`) is `strRepeat` with truncated `Nat` subtraction
for the count.
-/

/-- Entity record produced by a span producer, mirroring the keys of the
Python entity dictionaries that the core reads (`text`, `type`, `start`,
`end`, `detection_method`, `confidence`); optional keys (`ner_tag`,
`metadata`) are opaque to the core and omitted. -/
structure Entity where
  text : List Char
  type : String
  start : Nat
  «end» : Nat
  detection_method : String
  confidence : String
deriving DecidableEq, Repr

/-- Audit record appended for each masked entity
(`anonymize_text`, lines 546-553). -/
structure MaskedEntity where
  original : List Char
  type : String
  mask : List Char
  position : Nat × Nat
  detection_method : String
  confidence : String
deriving DecidableEq, Repr

/-- Per-detection-method counts of the result dictionary
(`anonymize_text`, lines 565-570). -/
structure DetectionMethodCounts where
  classla_ner : Nat
  presidio_patterns : Nat
  google_phonenumbers : Nat
  regional_patterns : Nat
deriving DecidableEq, Repr

/-- Compliance report built by `_check_gdpr_compliance` (lines 643-648). -/
structure ComplianceReport where
  gdpr_article_4_compliant : Bool
  personal_data_detected : List String
  special_categories : List String
  recommendations : List String
deriving DecidableEq, Repr

/-- Result dictionary returned by `anonymize_text` (lines 558-571). -/
structure AnonymizationResult where
  original_text : List Char
  anonymized_text : List Char
  masked_entities : List MaskedEntity
  total_entities_masked : Nat
  privacy_risk : String
  gdpr_compliance : ComplianceReport
  detection_methods : DetectionMethodCounts
deriving DecidableEq, Repr

/-- Stable insertion of `x` into a `le`-sorted list: `x` is placed in
front of the first element `y` with `le x y`, so an element inserted
from an earlier original position precedes all elements it ties with. -/
def insortBy (le : α → α → Bool) (x : α) : List α → List α
  | [] => [x]
  | y :: ys => if le x y then x :: y :: ys else y :: insortBy le x ys

/-- Model of Python `list.sort` with a boolean comparator `le`
(`le a b` meaning `a` may precede `b`): the unique stable sort for a
total `le`, realised as stable insertion sort. -/
def listSort (le : α → α → Bool) : List α → List α
  | [] => []
  | x :: xs => insortBy le x (listSort le xs)

/-- Comparator realising the merge sort key of line 579, the pair
`(end - start, -start)` sorted with `reverse=True`: `a` may precede `b`
iff the key of `b` is at most the key of `a` in the lexicographic
order on pairs of Python integers. -/
def entityLE (a b : Entity) : Bool :=
  decide (((b.«end» : Int) - b.start < (a.«end» : Int) - a.start) ∨
    ((a.«end» : Int) - a.start = (b.«end» : Int) - b.start ∧
      -(b.start : Int) ≤ -(a.start : Int)))

/-- Overlap test of lines 586-587: the candidate `e` overlaps an
already accepted `f` iff `e.start < f.end and e.end > f.start`. -/
def overlapsE (e f : Entity) : Bool :=
  decide (e.start < f.«end») && decide (e.«end» > f.start)

/-- One iteration of the acceptance loop of lines 582-592: the
candidate is appended iff it overlaps no already accepted entity. -/
def acceptEntity (filtered : List Entity) (e : Entity) : List Entity :=
  if filtered.any (fun f => overlapsE e f) then filtered else filtered ++ [e]

/-- Model of `_remove_overlapping_entities` (lines 573-594): early
return on the empty list, sort by descending `(length, -start)` key,
then greedily accept non-overlapping entities in that order. -/
def remove_overlapping_entities (entities : List Entity) : List Entity :=
  if entities.isEmpty then entities
  else (listSort entityLE entities).foldl acceptEntity []

/-- Python string repetition `s * n` (concatenation of `n` copies). -/
def strRepeat (n : Nat) (s : List Char) : List Char :=
  match n with
  | 0 => []
  | k + 1 => s ++ strRepeat k s

/-- Mask text computed at lines 539-542: a descriptive
`<MASKED_TYPE>` tag, or `mask_char * (end - start)`. -/
def maskFor (use_descriptive_masks : Bool) (mask_char : List Char) (e : Entity) : List Char :=
  if use_descriptive_masks then
    "<MASKED_".data ++ e.type.data.map Char.toUpper ++ ">".data
  else strRepeat (e.«end» - e.start) mask_char

/-- Audit entry appended for `e` at lines 546-553. -/
def mkMasked (use_descriptive_masks : Bool) (mask_char : List Char) (e : Entity) : MaskedEntity :=
  { original := e.text
    type := e.type
    mask := maskFor use_descriptive_masks mask_char e
    position := (e.start, e.«end»)
    detection_method := e.detection_method
    confidence := e.confidence }

/-- Body of the replacement loop of lines 533-553: splice the mask into
the current text (`masked_text[:start] + mask + masked_text[end:]`) and
append the audit entry. -/
def maskStep (use_descriptive_masks : Bool) (mask_char : List Char)
    (acc : List Char × List MaskedEntity) (e : Entity) : List Char × List MaskedEntity :=
  (acc.1.take e.start ++ maskFor use_descriptive_masks mask_char e ++ acc.1.drop e.«end»,
    acc.2 ++ [mkMasked use_descriptive_masks mask_char e])

/-- Comparator for the second sort (line 527), key `start` with
`reverse=True`. -/
def startLE (a b : Entity) : Bool := decide (b.start ≤ a.start)

/-- High-risk entity types (line 605). -/
def high_risk : List String :=
  ["PERSONAL_ID", "CREDIT_CARD", "EMAIL", "IBAN", "TAX_NUMBER", "BANK_ACCOUNT"]

/-- Medium-risk entity types (line 607). -/
def medium_risk : List String := ["PER", "PHONE", "IP_ADDRESS"]

/-- Low-risk entity types (line 609, unused by the decision logic). -/
def low_risk : List String := ["LOC", "ORG", "URL", "DATE", "ADDRESS"]

/-- Model of `_assess_privacy_risk` (lines 596-619). -/
def assess_privacy_risk (masked_entities : List MaskedEntity) : String :=
  if masked_entities.isEmpty then "low"
  else
    let entity_types := masked_entities.map (fun e => e.type)
    let high_count := entity_types.countP (fun t => high_risk.contains t)
    let medium_count := entity_types.countP (fun t => medium_risk.contains t)
    if high_count > 0 then "high"
    else if medium_count > 1 then "medium"
    else "low"

/-- The `personal_data_types` lookup table of lines 626-641, as an
association list with the distinct keys of the dictionary. -/
def personal_data_types : List (String × String) :=
  [("PER", "Personal data (names, identifiers)"),
   ("EMAIL", "Personal data (contact information)"),
   ("PHONE", "Personal data (contact information)"),
   ("PERSONAL_ID", "Special category data (national ID)"),
   ("CREDIT_CARD", "Financial data"),
   ("IBAN", "Financial data (bank account)"),
   ("TAX_NUMBER", "Financial data (tax information)"),
   ("BANK_ACCOUNT", "Financial data (bank account)"),
   ("IP_ADDRESS", "Personal data (online identifier)"),
   ("DATE", "Personal data (birth dates, etc.)"),
   ("LOC", "Personal data (location)"),
   ("ORG", "Personal data (affiliation)"),
   ("URL", "Personal data (online activity)"),
   ("ADDRESS", "Personal data (location)")]

/-- The special-category subset tested at line 656. -/
def special_category_types : List String :=
  ["PERSONAL_ID", "CREDIT_CARD", "IBAN", "TAX_NUMBER", "BANK_ACCOUNT"]

/-- Body of the loop of lines 650-659: a type present in the lookup
table appends its description to `personal_data_detected` (and, for
special-category types, to `special_categories`); an absent type
leaves the report unchanged. -/
def compliance_step (report : ComplianceReport) (entity_type : String) : ComplianceReport :=
  match personal_data_types.lookup entity_type with
  | some desc =>
    let r := { report with personal_data_detected := report.personal_data_detected ++ [desc] }
    if special_category_types.contains entity_type then
      { r with special_categories := r.special_categories ++ [desc] }
    else r
  | none => report

/-- Recommendation post-processing of lines 661-669, as a function of
the report produced by the type loop: append the legal-basis
recommendation when personal data was detected, then the safeguards
recommendation when special categories were detected. -/
def checkPost (report : ComplianceReport) : ComplianceReport :=
  let report :=
    if report.personal_data_detected.isEmpty then report
    else { report with recommendations := report.recommendations ++
      ["Ensure proper legal basis for processing personal data"] }
  if report.special_categories.isEmpty then report
  else { report with recommendations := report.recommendations ++
    ["Special category data detected - additional safeguards required"] }

/-- Model of `_check_gdpr_compliance` (lines 621-671). -/
def check_gdpr_compliance (masked_entities : List MaskedEntity) : ComplianceReport :=
  let entity_types := masked_entities.map (fun e => e.type)
  let report := entity_types.foldl compliance_step
    { gdpr_article_4_compliant := true
      personal_data_detected := []
      special_categories := []
      recommendations := [] }
  let report :=
    if report.personal_data_detected.isEmpty then report
    else { report with recommendations := report.recommendations ++
      ["Ensure proper legal basis for processing personal data"] }
  if report.special_categories.isEmpty then report
  else { report with recommendations := report.recommendations ++
    ["Special category data detected - additional safeguards required"] }

/-- Model of `anonymize_text` (lines 492-571) applied to the combined
producer output `all_entities` (line 515): overlap removal, preserve-set
filtering, descending-start sort, destructive replacement loop, and
assembly of the result dictionary. -/
def anonymize_text (text : List Char) (all_entities : List Entity)
    (mask_char : List Char) (preserve_types : List String)
    (use_descriptive_masks : Bool) : AnonymizationResult :=
  let filtered_entities := remove_overlapping_entities all_entities
  let entities_to_mask :=
    filtered_entities.filter (fun e => !(preserve_types.contains e.type))
  let sorted_to_mask := listSort startLE entities_to_mask
  let p := sorted_to_mask.foldl (maskStep use_descriptive_masks mask_char) (text, [])
  { original_text := text
    anonymized_text := p.1
    masked_entities := p.2
    total_entities_masked := p.2.length
    privacy_risk := assess_privacy_risk p.2
    gdpr_compliance := check_gdpr_compliance p.2
    detection_methods :=
      { classla_ner := (p.2.filter (fun e => e.detection_method == "classla_ner")).length
        presidio_patterns := (p.2.filter (fun e => e.detection_method == "presidio_pattern")).length
        google_phonenumbers := (p.2.filter (fun e => e.detection_method == "google_phonenumbers")).length
        regional_patterns := (p.2.filter (fun e => e.detection_method == "regional_pattern")).length } }

/-- Modelled from the spec: the risk level as a function of the list of
masked entity types alone, following the words of the risk algorithm of
the specification (any HIGH type gives "high"; otherwise strictly more
than one occurrence of a MEDIUM type gives "medium"; otherwise "low",
including the empty list). -/
def riskFromTypesSpec (types : List String) : String :=
  if types.any (fun t => high_risk.contains t) then "high"
  else if types.countP (fun t => medium_risk.contains t) > 1 then "medium"
  else "low"

/-- Non-overlap of two half-open ranges, the negation of the overlap
test of lines 586-587 (touching endpoints satisfy it). -/
def noOverlapR (a b : Entity) : Prop := a.«end» ≤ b.start ∨ b.«end» ≤ a.start

/-- Fixture for the tie-break claim: length-2 span at offset 0. -/
def c2A : Entity := ⟨"ab".data, "A", 0, 2, "m", "high"⟩

/-- Fixture for the tie-break claim: length-2 span at offset 1,
overlapping `c2A`. -/
def c2B : Entity := ⟨"bc".data, "B", 1, 3, "m", "high"⟩

/-- Fixture for the tie-break claim: length-4 span touching `c2B`
at offset 3. -/
def c2R : Entity := ⟨"defg".data, "R", 3, 7, "m", "high"⟩

/-- Fixture with inverted offsets (`start > end`), as an ill-formed
producer output. -/
def c3bad : Entity := ⟨"cd".data, "X", 4, 2, "m", "high"⟩

/-- Fixture entity of type X over `[0, 3)` of `"AAAbbbCCC"`. -/
def c4X : Entity := ⟨"AAA".data, "X", 0, 3, "m", "high"⟩

/-- Fixture entity of type Y over `[6, 9)` of `"AAAbbbCCC"`. -/
def c4Y : Entity := ⟨"CCC".data, "Y", 6, 9, "m", "high"⟩

/-- Fixture span `[0, 10)` strictly containing `c8B`. -/
def c8A : Entity := ⟨"aaaaaaaaaa".data, "A", 0, 10, "m", "high"⟩

/-- Fixture span `[0, 5)` strictly contained in `c8A`. -/
def c8B : Entity := ⟨"aaaaa".data, "B", 0, 5, "m", "high"⟩

/-- Fixture span `[5, 20)` overlapping `c8A` but only touching `c8B`. -/
def c8C : Entity := ⟨"ccccccccccccccc".data, "C", 5, 20, "m", "high"⟩

/-- Witness fixture: span `[0, 4)` strictly containing `c8wB`. -/
def c8wA : Entity := ⟨"abcd".data, "A", 0, 4, "m", "high"⟩

/-- Witness fixture: span `[1, 3)` strictly contained in `c8wA`. -/
def c8wB : Entity := ⟨"bc".data, "B", 1, 3, "m", "high"⟩

/-- Witness fixture: span `[0, 2)` whose right endpoint touches
`c1B`. -/
def c1A : Entity := ⟨"ab".data, "T", 0, 2, "m", "high"⟩

/-- Witness fixture: span `[2, 4)` whose left endpoint touches
`c1A`. -/
def c1B : Entity := ⟨"cd".data, "U", 2, 4, "m", "high"⟩

/-- Witness fixture: well-formed span `[0, 1)` of type T. -/
def c6E : Entity := ⟨"a".data, "T", 0, 1, "m", "high"⟩

/-- Witness fixture: entity of type B over `[0, 2)`. -/
def c7B : Entity := ⟨"ab".data, "B", 0, 2, "m", "high"⟩

/-- Witness fixture: masked entity of a type absent from the
compliance lookup table. -/
def c9M : MaskedEntity :=
  ⟨"x".data, "FOO", "*".data, (0, 1), "m", "high"⟩

/-- Witness fixture: well-formed span `[0, 1)`. -/
def c10E1 : Entity := ⟨"a".data, "T", 0, 1, "m", "high"⟩

/-- Witness fixture: well-formed span `[2, 3)` to the right of
`c10E1`. -/
def c10E2 : Entity := ⟨"c".data, "U", 2, 3, "m", "high"⟩

theorem mem_insortBy (le : α → α → Bool) (x : α) (l : List α) (y : α) :
    y ∈ insortBy le x l ↔ y = x ∨ y ∈ l := by
  induction l with
  | nil => simp [insortBy]
  | cons z zs ih =>
    by_cases h : le x z = true
    · simp [insortBy, h]
    · simp only [insortBy, if_neg h, List.mem_cons, ih]
      tauto

theorem insortBy_perm (le : α → α → Bool) (x : α) (l : List α) :
    (insortBy le x l).Perm (x :: l) := by
  induction l with
  | nil => simp [insortBy]
  | cons z zs ih =>
    by_cases h : le x z = true
    · simp [insortBy, h]
    · rw [insortBy, if_neg h]
      exact (ih.cons z).trans (List.Perm.swap x z zs)

theorem listSort_perm (le : α → α → Bool) (l : List α) :
    (listSort le l).Perm l := by
  induction l with
  | nil => simp [listSort]
  | cons x xs ih =>
    exact (insortBy_perm le x (listSort le xs)).trans (ih.cons x)

theorem mem_listSort (le : α → α → Bool) (l : List α) (y : α) :
    y ∈ listSort le l ↔ y ∈ l :=
  (listSort_perm le l).mem_iff

theorem length_listSort (le : α → α → Bool) (l : List α) :
    (listSort le l).length = l.length :=
  (listSort_perm le l).length_eq

theorem pairwise_insortBy (le : α → α → Bool)
    (htot : ∀ a b, le a b = true ∨ le b a = true)
    (htrans : ∀ a b c, le a b = true → le b c = true → le a c = true)
    (x : α) (l : List α) (hl : l.Pairwise (fun a b => le a b = true)) :
    (insortBy le x l).Pairwise (fun a b => le a b = true) := by
  induction l with
  | nil => simp [insortBy]
  | cons y ys ih =>
    rcases List.pairwise_cons.mp hl with ⟨hy, hys⟩
    by_cases h : le x y = true
    · rw [insortBy, if_pos h]
      refine List.pairwise_cons.mpr ⟨?_, hl⟩
      intro b hb
      rcases List.mem_cons.mp hb with hb | hb
      · exact hb ▸ h
      · exact htrans x y b h (hy b hb)
    · rw [insortBy, if_neg h]
      refine List.pairwise_cons.mpr ⟨?_, ih hys⟩
      intro b hb
      rcases (mem_insortBy le x ys b).mp hb with hb | hb
      · subst hb
        rcases htot b y with hby | hyb
        · exact absurd hby h
        · exact hyb
      · exact hy b hb

theorem pairwise_listSort (le : α → α → Bool)
    (htot : ∀ a b, le a b = true ∨ le b a = true)
    (htrans : ∀ a b c, le a b = true → le b c = true → le a c = true)
    (l : List α) :
    (listSort le l).Pairwise (fun a b => le a b = true) := by
  induction l with
  | nil => simp [listSort]
  | cons x xs ih => exact pairwise_insortBy le htot htrans x (listSort le xs) ih

theorem entityLE_total (a b : Entity) : entityLE a b = true ∨ entityLE b a = true := by
  simp only [entityLE, decide_eq_true_eq]
  omega

theorem entityLE_trans (a b c : Entity) (h1 : entityLE a b = true)
    (h2 : entityLE b c = true) : entityLE a c = true := by
  simp only [entityLE, decide_eq_true_eq] at h1 h2 ⊢
  omega

theorem startLE_total (a b : Entity) : startLE a b = true ∨ startLE b a = true := by
  simp only [startLE, decide_eq_true_eq]
  omega

theorem startLE_trans (a b c : Entity) (h1 : startLE a b = true)
    (h2 : startLE b c = true) : startLE a c = true := by
  simp only [startLE, decide_eq_true_eq] at h1 h2 ⊢
  omega

theorem noOverlapR_symm (a b : Entity) (h : noOverlapR a b) : noOverlapR b a := by
  unfold noOverlapR at h ⊢
  omega

theorem pairwise_foldl_acceptEntity (l : List Entity) (acc : List Entity)
    (hacc : acc.Pairwise noOverlapR) :
    (l.foldl acceptEntity acc).Pairwise noOverlapR := by
  induction l generalizing acc with
  | nil => simpa using hacc
  | cons e es ih =>
    rw [List.foldl_cons]
    apply ih
    unfold acceptEntity
    by_cases h : acc.any (fun f => overlapsE e f) = true
    · rw [if_pos h]; exact hacc
    · rw [if_neg h]
      rw [List.pairwise_append]
      refine ⟨hacc, List.pairwise_singleton _ _, ?_⟩
      intro a ha b hb
      have hbe : b = e := List.mem_singleton.mp hb
      subst hbe
      have hfa : ¬ overlapsE b a = true := by
        intro hov
        exact h (List.any_eq_true.mpr ⟨a, ha, hov⟩)
      simp only [overlapsE, Bool.and_eq_true, decide_eq_true_eq, gt_iff_lt, not_and,
        not_lt] at hfa
      unfold noOverlapR
      omega

theorem mem_foldl_acceptEntity (l : List Entity) (acc : List Entity) (x : Entity)
    (hx : x ∈ l.foldl acceptEntity acc) : x ∈ acc ∨ x ∈ l := by
  induction l generalizing acc with
  | nil => exact Or.inl (by simpa using hx)
  | cons e es ih =>
    rw [List.foldl_cons] at hx
    rcases ih (acceptEntity acc e) hx with h | h
    · unfold acceptEntity at h
      by_cases hc : acc.any (fun f => overlapsE e f) = true
      · rw [if_pos hc] at h
        exact Or.inl h
      · rw [if_neg hc] at h
        rcases List.mem_append.mp h with h | h
        · exact Or.inl h
        · have hxe : x = e := List.mem_singleton.mp h
          exact Or.inr (by rw [hxe]; exact List.mem_cons_self e es)
    · exact Or.inr (List.mem_cons_of_mem e h)

theorem pairwise_remove_overlapping (l : List Entity) :
    (remove_overlapping_entities l).Pairwise noOverlapR := by
  unfold remove_overlapping_entities
  by_cases h : l.isEmpty = true
  · rw [if_pos h]
    rcases List.isEmpty_iff.mp h with rfl
    exact List.Pairwise.nil
  · rw [if_neg h]
    exact pairwise_foldl_acceptEntity _ [] List.Pairwise.nil

theorem mem_remove_overlapping (l : List Entity) (x : Entity)
    (hx : x ∈ remove_overlapping_entities l) : x ∈ l := by
  unfold remove_overlapping_entities at hx
  by_cases h : l.isEmpty = true
  · rw [if_pos h] at hx
    exact hx
  · rw [if_neg h] at hx
    rcases mem_foldl_acceptEntity _ [] x hx with h | h
    · simp at h
    · exact (mem_listSort entityLE l x).mp h

theorem strRepeat_length (n : Nat) (s : List Char) :
    (strRepeat n s).length = n * s.length := by
  induction n with
  | zero => simp [strRepeat]
  | succ k ih =>
    simp only [strRepeat, List.length_append, ih]
    ring

theorem snd_foldl_maskStep (d : Bool) (mc : List Char) (l : List Entity)
    (t0 : List Char) (m0 : List MaskedEntity) :
    (l.foldl (maskStep d mc) (t0, m0)).2 = m0 ++ l.map (mkMasked d mc) := by
  induction l generalizing t0 m0 with
  | nil => simp
  | cons e es ih =>
    rw [List.foldl_cons, List.map_cons]
    show ((es.foldl (maskStep d mc) (maskStep d mc (t0, m0) e))).2 = _
    rw [ih]
    simp [maskStep]

theorem fst_foldl_maskStep_length (mc : List Char) (hmc : mc.length = 1)
    (l : List Entity) (n : Nat) (hl : ∀ e ∈ l, e.start ≤ e.«end» ∧ e.«end» ≤ n)
    (t0 : List Char) (ht0 : t0.length = n) (m0 : List MaskedEntity) :
    ((l.foldl (maskStep false mc) (t0, m0)).1).length = n := by
  induction l generalizing t0 m0 with
  | nil => simpa using ht0
  | cons e es ih =>
    rw [List.foldl_cons]
    apply ih (fun f hf => hl f (List.mem_cons_of_mem e hf))
    have he := hl e (List.mem_cons_self e es)
    simp only [maskStep, maskFor, Bool.false_eq_true, if_false, List.length_append,
      List.length_take, List.length_drop, strRepeat_length, hmc, ht0]
    omega

theorem anonymize_text_masked (text : List Char) (all : List Entity)
    (mc : List Char) (pres : List String) (d : Bool) :
    (anonymize_text text all mc pres d).masked_entities =
      (listSort startLE ((remove_overlapping_entities all).filter
        (fun e => !(pres.contains e.type)))).map (mkMasked d mc) := by
  have h := snd_foldl_maskStep d mc
    (listSort startLE ((remove_overlapping_entities all).filter
      (fun e => !(pres.contains e.type)))) text []
  simpa [anonymize_text] using h

theorem anonymize_text_total (text : List Char) (all : List Entity)
    (mc : List Char) (pres : List String) (d : Bool) :
    (anonymize_text text all mc pres d).total_entities_masked =
      ((remove_overlapping_entities all).filter
        (fun e => !(pres.contains e.type))).length := by
  have h : (anonymize_text text all mc pres d).total_entities_masked =
      (anonymize_text text all mc pres d).masked_entities.length := rfl
  rw [h, anonymize_text_masked, List.length_map, length_listSort]

theorem anonymize_text_anonymized (text : List Char) (all : List Entity)
    (mc : List Char) (pres : List String) (d : Bool) :
    (anonymize_text text all mc pres d).anonymized_text =
      ((listSort startLE ((remove_overlapping_entities all).filter
        (fun e => !(pres.contains e.type)))).foldl (maskStep d mc) (text, [])).1 := rfl

theorem overlapsE_eq_false (e f : Entity)
    (h : ¬ (e.start < f.«end» ∧ f.start < e.«end»)) : overlapsE e f = false := by
  cases hval : overlapsE e f with
  | false => rfl
  | true =>
    exfalso
    simp only [overlapsE, Bool.and_eq_true, decide_eq_true_eq, gt_iff_lt] at hval
    exact h hval

theorem overlapsE_eq_true (e f : Entity)
    (h1 : e.start < f.«end») (h2 : f.start < e.«end») : overlapsE e f = true := by
  simp only [overlapsE, Bool.and_eq_true, decide_eq_true_eq, gt_iff_lt]
  exact ⟨h1, h2⟩

/-- C1: every output of the merger is pairwise non-overlapping in the
claimed strict sense (`a.end <= b.start` or `a.start >= b.end` for any
two kept entities), and two spans that merely touch at an endpoint
(`a.end = b.start`) are both kept when merged together. -/
theorem merger_no_overlap (l : List Entity) (a b : Entity) (hab : a.«end» = b.start) :
    (remove_overlapping_entities l).Pairwise
      (fun x y => x.«end» ≤ y.start ∨ x.start ≥ y.«end») ∧
    a ∈ remove_overlapping_entities [a, b] ∧ b ∈ remove_overlapping_entities [a, b] := by
  have hb1 : overlapsE b a = false := overlapsE_eq_false b a (by omega)
  have ha1 : overlapsE a b = false := overlapsE_eq_false a b (by omega)
  have hres : remove_overlapping_entities [a, b] = [a, b] ∨
      remove_overlapping_entities [a, b] = [b, a] := by
    by_cases hle : entityLE a b = true
    · left
      simp [remove_overlapping_entities, listSort, insortBy, hle, acceptEntity, hb1]
    · right
      simp [remove_overlapping_entities, listSort, insortBy, hle, acceptEntity, ha1]
  refine ⟨List.Pairwise.imp ?_ (pairwise_remove_overlapping l), ?_, ?_⟩
  · intro x y h
    unfold noOverlapR at h
    omega
  · rcases hres with h | h <;> rw [h] <;> simp
  · rcases hres with h | h <;> rw [h] <;> simp

/-- Witness for C1 at the empty merge input and the touching pair
`[0,2)`, `[2,4)`: both touching spans are kept. -/
theorem merger_no_overlap_witness :
    (remove_overlapping_entities []).Pairwise
      (fun x y => x.«end» ≤ y.start ∨ x.start ≥ y.«end») ∧
    c1A ∈ remove_overlapping_entities [c1A, c1B] ∧
    c1B ∈ remove_overlapping_entities [c1A, c1B] :=
  merger_no_overlap [] c1A c1B (by decide)

/-- C2 counterexample: among the equal-length overlapping spans
`c2A = [0,2)` and `c2B = [1,3)`, the sort of line 579 places the one
with the SMALLER start first (`[c2A, c2B]`, not `[c2B, c2A]`), and in
the presence of the longer span `c2R = [3,7)` the merger keeps `c2A`
(the smaller start) and discards `c2B`, contradicting the claim that
the larger start is preferred. -/
theorem tiebreak_larger_start_refuted :
    listSort entityLE [c2A, c2B] = [c2A, c2B] ∧
    remove_overlapping_entities [c2A, c2B, c2R] = [c2R, c2A] ∧
    c2B ∉ remove_overlapping_entities [c2A, c2B, c2R] := by decide

/-- C2 amended: the merger sorts descending by span length
`end - start` (as Python integers), and among entities of equal length
the one with the SMALLER start sorts first. -/
theorem sort_pref_smaller_start (l : List Entity) :
    (listSort entityLE l).Pairwise (fun a b =>
      ((b.«end» : Int) - b.start < (a.«end» : Int) - a.start) ∨
      (((a.«end» : Int) - a.start = (b.«end» : Int) - b.start) ∧ a.start ≤ b.start)) := by
  refine List.Pairwise.imp ?_ (pairwise_listSort entityLE entityLE_total entityLE_trans l)
  intro a b h
  simp only [entityLE, decide_eq_true_eq] at h
  omega

/-- C3: the code does not drop an ill-formed entity (`start = 4 > 2 =
end`, so also not a valid slice of `"abcdef"`): the entity is kept,
counted as masked, and the splice
`text[:4] + "" + text[2:]` corrupts the text to `"abcdcdef"` instead of
leaving `"abcdef"` unchanged. -/
theorem invalid_span_propagates :
    (anonymize_text "abcdef".data [c3bad] "*".data [] false).anonymized_text =
      "abcdcdef".data ∧
    (anonymize_text "abcdef".data [c3bad] "*".data [] false).total_entities_masked = 1 ∧
    (anonymize_text "abcdef".data [c3bad] "*".data [] false).anonymized_text ≠
      "abcdef".data := by decide

/-- C4: masking `[0,3)` and `[6,9)` of `"AAAbbbCCC"` in asterisk mode
yields `"***bbb***"`; masking only `[6,9)` in descriptive mode yields
`"AAAbbb<MASKED_Y>"`; and each replacement step splices
`text[:start] + mask + text[end:]` on the current text (the steps being
applied in descending-start order by `anonymize_text`). -/
theorem offset_correct_multi_replacement :
    (anonymize_text "AAAbbbCCC".data [c4X, c4Y] "*".data [] false).anonymized_text =
      "***bbb***".data ∧
    (anonymize_text "AAAbbbCCC".data [c4Y] "*".data [] true).anonymized_text =
      "AAAbbb<MASKED_Y>".data ∧
    ∀ (t : List Char) (ms : List MaskedEntity) (mc : List Char) (d : Bool) (e : Entity),
      (maskStep d mc (t, ms) e).1 = t.take e.start ++ maskFor d mc e ++ t.drop e.«end» := by
  refine ⟨by decide, by decide, ?_⟩
  intro t ms mc d e
  rfl

/-- C5: the risk assessor is a total deterministic function of the list
of masked entity types: it agrees everywhere (including the empty list,
despite the early return of line 598) with the spec-side decision rule
on the type list alone. -/
theorem risk_total_function_of_types (masked : List MaskedEntity) :
    assess_privacy_risk masked = riskFromTypesSpec (masked.map (fun e => e.type)) := by
  cases masked with
  | nil => rfl
  | cons m ms =>
    simp only [assess_privacy_risk, riskFromTypesSpec, List.isEmpty_cons,
      Bool.false_eq_true, if_false]
    set ts := (m :: ms).map (fun e => e.type) with hts
    by_cases hh : ts.any (fun t => high_risk.contains t) = true
    · have hc : ts.countP (fun t => high_risk.contains t) > 0 := by
        rw [gt_iff_lt, List.countP_pos_iff]
        exact List.any_eq_true.mp hh
      rw [if_pos hc, if_pos hh]
    · have hc : ¬ ts.countP (fun t => high_risk.contains t) > 0 := by
        rw [gt_iff_lt, List.countP_pos_iff]
        rintro ⟨a, ha, hpa⟩
        exact hh (List.any_eq_true.mpr ⟨a, ha, hpa⟩)
      rw [if_neg hc, if_neg hh]

/-- C6: in asterisk mode with a single-character mask string, every
recorded mask has length `end - start`, and the anonymized text has the
same length as the original, provided the producer spans are well
formed (`start <= end <= len(text)`). -/
theorem asterisk_mask_length_preserved (text : List Char) (all : List Entity)
    (mc : List Char) (pres : List String)
    (hmc : mc.length = 1)
    (hwf : ∀ e ∈ all, e.start ≤ e.«end» ∧ e.«end» ≤ text.length) :
    (anonymize_text text all mc pres false).anonymized_text.length = text.length ∧
    ∀ m ∈ (anonymize_text text all mc pres false).masked_entities,
      m.mask.length = m.position.2 - m.position.1 := by
  constructor
  · rw [anonymize_text_anonymized]
    refine fst_foldl_maskStep_length mc hmc _ text.length ?_ text rfl []
    intro e he
    have hall : e ∈ all := by
      have h1 := (mem_listSort startLE _ e).mp he
      have h2 := List.mem_of_mem_filter h1
      exact mem_remove_overlapping all e h2
    exact hwf e hall
  · intro m hm
    rw [anonymize_text_masked] at hm
    rcases List.mem_map.mp hm with ⟨e, he, rfl⟩
    show (maskFor false mc e).length = e.«end» - e.start
    simp only [maskFor, Bool.false_eq_true, if_false, strRepeat_length, hmc, Nat.mul_one]

/-- Witness for C6 on `"ab"` with the single well-formed entity
`[0, 1)` and mask string `"*"`. -/
theorem asterisk_mask_length_preserved_witness :
    ("*".data.length = 1) ∧
    ((anonymize_text "ab".data [c6E] "*".data [] false).anonymized_text.length =
        "ab".data.length ∧
      ∀ m ∈ (anonymize_text "ab".data [c6E] "*".data [] false).masked_entities,
        m.mask.length = m.position.2 - m.position.1) :=
  ⟨by decide, asterisk_mask_length_preserved "ab".data [c6E] "*".data []
    (by decide) (by decide)⟩

/-- C7: with preserve set `{A}`, no masked entity has type A, and when
every merged entity has type A or B (with A different from B) the
total masked count equals the number of kept B-type entities. -/
theorem preserve_set_excluded (text : List Char) (all : List Entity) (mc : List Char)
    (d : Bool) (A B : String) (hAB : A ≠ B)
    (htypes : ∀ e ∈ remove_overlapping_entities all, e.type = A ∨ e.type = B) :
    (∀ m ∈ (anonymize_text text all mc [A] d).masked_entities, m.type ≠ A) ∧
    (anonymize_text text all mc [A] d).total_entities_masked =
      (remove_overlapping_entities all).countP (fun e => e.type == B) := by
  constructor
  · intro m hm
    rw [anonymize_text_masked] at hm
    rcases List.mem_map.mp hm with ⟨e, he, rfl⟩
    have h1 := (mem_listSort startLE _ e).mp he
    have h2 := List.of_mem_filter h1
    show e.type ≠ A
    intro hEq
    rw [hEq] at h2
    simp at h2
  · rw [anonymize_text_total, List.countP_eq_length_filter]
    congr 1
    apply List.filter_congr
    intro e he
    rcases htypes e he with h | h <;> rw [h]
    · simp [hAB]
    · simp [Ne.symm hAB]

/-- Witness for C7: one kept B-type entity, preserve set `{"A"}`. -/
theorem preserve_set_excluded_witness :
    ("A" ≠ "B") ∧
    (∀ e ∈ remove_overlapping_entities [c7B], e.type = "A" ∨ e.type = "B") ∧
    ((∀ m ∈ (anonymize_text "ab".data [c7B] "*".data ["A"] false).masked_entities,
        m.type ≠ "A") ∧
      (anonymize_text "ab".data [c7B] "*".data ["A"] false).total_entities_masked =
        (remove_overlapping_entities [c7B]).countP (fun e => e.type == "B")) :=
  ⟨by decide, by decide, preserve_set_excluded "ab".data [c7B] "*".data false "A" "B"
    (by decide) (by decide)⟩

/-- C8 counterexample: `c8A = [0,10)` strictly contains `c8B = [0,5)`,
yet with the longer third span `c8C = [5,20)` also in the input the
merger discards the containing `c8A` and keeps the contained `c8B`, so
the merger does not always keep the longer of a nested pair. -/
theorem containment_keep_longer_refuted :
    remove_overlapping_entities [c8A, c8B, c8C] = [c8C, c8B] ∧
    c8A ∉ remove_overlapping_entities [c8A, c8B, c8C] ∧
    c8B ∈ remove_overlapping_entities [c8A, c8B, c8C] := by decide

/-- C8 amended: when the input of the merger consists of exactly the two
nested entities (one strictly containing the other, the contained span
non-empty), the containing entity is kept and the contained one is
discarded, in either input order. -/
theorem containment_pair_keeps_longer (a b : Entity)
    (h1 : a.start ≤ b.start) (h2 : b.«end» ≤ a.«end»)
    (hstrict : a.start < b.start ∨ b.«end» < a.«end»)
    (hb : b.start < b.«end») :
    remove_overlapping_entities [a, b] = [a] ∧
    remove_overlapping_entities [b, a] = [a] := by
  have hab : entityLE a b = true := by
    simp only [entityLE, decide_eq_true_eq]
    omega
  have hba : entityLE b a = false := by
    cases hval : entityLE b a with
    | false => rfl
    | true =>
      exfalso
      simp only [entityLE, decide_eq_true_eq] at hval
      omega
  have hov : overlapsE b a = true := overlapsE_eq_true b a (by omega) (by omega)
  constructor
  · simp [remove_overlapping_entities, listSort, insortBy, hab, acceptEntity, hov]
  · simp [remove_overlapping_entities, listSort, insortBy, hba, acceptEntity, hov]

/-- Witness for the amended C8 at the nested pair `[0,4)`, `[1,3)`. -/
theorem containment_pair_keeps_longer_witness :
    (c8wA.start ≤ c8wB.start) ∧ (c8wB.«end» ≤ c8wA.«end») ∧
    (c8wA.start < c8wB.start ∨ c8wB.«end» < c8wA.«end») ∧
    (c8wB.start < c8wB.«end») ∧
    (remove_overlapping_entities [c8wA, c8wB] = [c8wA] ∧
      remove_overlapping_entities [c8wB, c8wA] = [c8wA]) :=
  ⟨by decide, by decide, by decide, by decide,
    containment_pair_keeps_longer c8wA c8wB (by decide) (by decide) (by decide)
      (by decide)⟩

theorem foldl_compliance_step_recommendations (ts : List String) (r0 : ComplianceReport) :
    (ts.foldl compliance_step r0).recommendations = r0.recommendations := by
  induction ts generalizing r0 with
  | nil => rfl
  | cons t ts ih =>
    rw [List.foldl_cons, ih]
    show (compliance_step r0 t).recommendations = r0.recommendations
    unfold compliance_step
    cases personal_data_types.lookup t with
    | none => rfl
    | some desc =>
      cases hc : special_category_types.contains t with
      | false => rfl
      | true => rfl

theorem checkPost_recommendations (g : Bool) (pd sc : List String) :
    (checkPost ⟨g, pd, sc, []⟩).recommendations =
      (if (checkPost ⟨g, pd, sc, []⟩).personal_data_detected.isEmpty then []
        else ["Ensure proper legal basis for processing personal data"]) ++
      (if (checkPost ⟨g, pd, sc, []⟩).special_categories.isEmpty then []
        else ["Special category data detected - additional safeguards required"]) := by
  by_cases h1 : pd.isEmpty = true
  · by_cases h2 : sc.isEmpty = true
    · simp [checkPost, h1, h2]
    · simp [checkPost, h1, h2]
  · by_cases h2 : sc.isEmpty = true
    · simp [checkPost, h1, h2]
    · simp [checkPost, h1, h2]

theorem check_gdpr_recommendations (ms : List MaskedEntity) :
    (check_gdpr_compliance ms).recommendations =
      (if (check_gdpr_compliance ms).personal_data_detected.isEmpty then []
        else ["Ensure proper legal basis for processing personal data"]) ++
      (if (check_gdpr_compliance ms).special_categories.isEmpty then []
        else ["Special category data detected - additional safeguards required"]) := by
  rcases hF : (ms.map (fun e => e.type)).foldl compliance_step
    { gdpr_article_4_compliant := true
      personal_data_detected := []
      special_categories := []
      recommendations := [] } with ⟨g, pd, sc, rc⟩
  have hrc : rc = [] := by
    have h0 := foldl_compliance_step_recommendations (ms.map (fun e => e.type))
      { gdpr_article_4_compliant := true
        personal_data_detected := []
        special_categories := []
        recommendations := [] }
    rw [hF] at h0
    exact h0
  subst hrc
  have he : check_gdpr_compliance ms = checkPost ⟨g, pd, sc, []⟩ := by
    have h0 : check_gdpr_compliance ms = checkPost ((ms.map (fun e => e.type)).foldl
      compliance_step
      { gdpr_article_4_compliant := true
        personal_data_detected := []
        special_categories := []
        recommendations := [] }) := rfl
    rw [h0, hF]
  rw [he]
  exact checkPost_recommendations g pd sc

/-- C9: a masked entity whose type is absent from the lookup table
leaves the compliance report exactly unchanged (so the builder never
fails on it), and the recommendations list is determined purely by
whether the detected/special-category lists are non-empty. -/
theorem compliance_unknown_type_omitted (ms : List MaskedEntity) (m : MaskedEntity)
    (h : personal_data_types.lookup m.type = none) :
    check_gdpr_compliance (ms ++ [m]) = check_gdpr_compliance ms ∧
    (check_gdpr_compliance ms).recommendations =
      (if (check_gdpr_compliance ms).personal_data_detected.isEmpty then []
        else ["Ensure proper legal basis for processing personal data"]) ++
      (if (check_gdpr_compliance ms).special_categories.isEmpty then []
        else ["Special category data detected - additional safeguards required"]) := by
  have hstep : ∀ r : ComplianceReport, compliance_step r m.type = r := by
    intro r
    unfold compliance_step
    rw [h]
  constructor
  · simp only [check_gdpr_compliance, List.map_append, List.map_cons, List.map_nil,
      List.foldl_append, List.foldl_cons, List.foldl_nil, hstep]
  · exact check_gdpr_recommendations ms

/-- Witness for C9 with the unknown type `"FOO"` and the empty
masked-entity list. -/
theorem compliance_unknown_type_omitted_witness :
    (personal_data_types.lookup c9M.type = none) ∧
    (check_gdpr_compliance ([] ++ [c9M]) = check_gdpr_compliance [] ∧
      (check_gdpr_compliance []).recommendations =
        (if (check_gdpr_compliance []).personal_data_detected.isEmpty then []
          else ["Ensure proper legal basis for processing personal data"]) ++
        (if (check_gdpr_compliance []).special_categories.isEmpty then []
          else ["Special category data detected - additional safeguards required"])) :=
  ⟨by decide, compliance_unknown_type_omitted [] c9M (by decide)⟩

theorem pairwise_desc_not_asc (L : List MaskedEntity)
    (hd : L.Pairwise (fun m1 m2 => m2.position.1 < m1.position.1))
    (hlen : 2 ≤ L.length) :
    ¬ L.Pairwise (fun m1 m2 => m1.position.1 ≤ m2.position.1) := by
  cases L with
  | nil => simp at hlen
  | cons m1 t =>
    cases t with
    | nil => simp at hlen
    | cons m2 r =>
      intro ha
      have hd1 := (List.pairwise_cons.mp hd).1 m2 (List.mem_cons_self m2 r)
      have ha1 := (List.pairwise_cons.mp ha).1 m2 (List.mem_cons_self m2 r)
      omega

/-- C10: for well-formed producer spans (`start < end`), the returned
`masked_entities` list is ordered by strictly descending original start
offset, and with two or more masked entities it is never in
left-to-right (ascending-start) order. -/
theorem masked_entities_start_descending (text : List Char) (all : List Entity)
    (mc : List Char) (pres : List String) (d : Bool)
    (hwf : ∀ e ∈ all, e.start < e.«end») :
    (anonymize_text text all mc pres d).masked_entities.Pairwise
      (fun m1 m2 => m2.position.1 < m1.position.1) ∧
    (2 ≤ (anonymize_text text all mc pres d).masked_entities.length →
      ¬ (anonymize_text text all mc pres d).masked_entities.Pairwise
        (fun m1 m2 => m1.position.1 ≤ m2.position.1)) := by
  have hmain : (anonymize_text text all mc pres d).masked_entities.Pairwise
      (fun m1 m2 => m2.position.1 < m1.position.1) := by
    rw [anonymize_text_masked, List.pairwise_map]
    have hsorted : (listSort startLE ((remove_overlapping_entities all).filter
        (fun e => !(pres.contains e.type)))).Pairwise (fun a b => startLE a b = true) :=
      pairwise_listSort startLE startLE_total startLE_trans _
    have hp2 : ((remove_overlapping_entities all).filter
        (fun e => !(pres.contains e.type))).Pairwise noOverlapR :=
      (pairwise_remove_overlapping all).sublist (List.filter_sublist _)
    have hNO : (listSort startLE ((remove_overlapping_entities all).filter
        (fun e => !(pres.contains e.type)))).Pairwise noOverlapR :=
      ((listSort_perm startLE _).pairwise_iff
        (fun {x y} hxy => noOverlapR_symm x y hxy)).mpr hp2
    have hwl : ∀ e ∈ listSort startLE ((remove_overlapping_entities all).filter
        (fun e => !(pres.contains e.type))), e.start < e.«end» := by
      intro e he
      have h1 := (mem_listSort startLE _ e).mp he
      exact hwf e (mem_remove_overlapping all e (List.mem_of_mem_filter h1))
    refine List.Pairwise.imp_of_mem ?_ (hsorted.and hNO)
    intro a b ha hb hr
    have hwa := hwl a ha
    have hwb := hwl b hb
    rcases hr with ⟨hs, hno⟩
    simp only [startLE, decide_eq_true_eq] at hs
    unfold noOverlapR at hno
    show b.start < a.start
    omega
  exact ⟨hmain, fun hlen => pairwise_desc_not_asc _ hmain hlen⟩

/-- Witness for C10 with two well-formed spans `[0,1)` and `[2,3)`. -/
theorem masked_entities_start_descending_witness :
    (∀ e ∈ [c10E1, c10E2], e.start < e.«end») ∧
    ((anonymize_text "abcd".data [c10E1, c10E2] "*".data [] false).masked_entities.Pairwise
        (fun m1 m2 => m2.position.1 < m1.position.1) ∧
      (2 ≤ (anonymize_text "abcd".data [c10E1, c10E2] "*".data []
          false).masked_entities.length →
        ¬ (anonymize_text "abcd".data [c10E1, c10E2] "*".data []
            false).masked_entities.Pairwise
          (fun m1 m2 => m1.position.1 ≤ m2.position.1))) :=
  ⟨by decide, masked_entities_start_descending "abcd".data [c10E1, c10E2] "*".data []
    false (by decide)⟩
